import Mathlib

/- Verification development for the rag-track document-ingestion pipeline
   (src/rag_track/pipelines/extract/nodes.py and
   src/rag_track/pipelines/embedding/nodes.py): the text chunker
   `_split_text_into_chunks`, the per-item accumulation loops of the extract
   and embedding stages, the collection-ensure step, and the report
   aggregator `generate_execution_reports`.

   External collaborators (S3 client, docling converter, embedding model,
   Qdrant client) are modelled as oracles/abstract state, following the
   interface description of the specification; everything else is translated
   from the Python source. -/

/-- Python slice / `str.rfind` index normalization for a sequence of length
`n`: a negative index counts from the end (clamped below at 0), a
nonnegative one is clamped above at `n`. -/
def pyNorm (n : Nat) (i : Int) : Nat :=
  if i < 0 then (i + n).toNat else min i.toNat n

/-- Python `text[a:b]` on a list of characters: the elements at
(normalized) indices `a ≤ i < b`. -/
def pySlice (s : List Char) (a b : Int) : List Char :=
  (s.take (pyNorm s.length b)).drop (pyNorm s.length a)

/-- The ASCII whitespace characters removed by Python `str.strip()`. -/
def isPySpace (c : Char) : Bool :=
  c == ' ' || c == '\t' || c == '\n' || c == '\r' || c == '\x0b' || c == '\x0c'

/-- Python `text.strip()`: drop whitespace from both ends. -/
def pyStrip (s : List Char) : List Char :=
  ((s.dropWhile isPySpace).reverse.dropWhile isPySpace).reverse

/-- Helper for `text.rfind(' ', lo, hi)` with already-normalized bounds:
the greatest index `i` with `lo ≤ i < hi` and `s[i] = ' '`, else `-1`. -/
def rfindSpaceAux (s : List Char) (lo : Nat) : Nat → Int
  | 0 => -1
  | hi + 1 =>
    if lo ≤ hi ∧ s.getD hi 'x' = ' ' then (hi : Int) else rfindSpaceAux s lo hi

/-- Python `text.rfind(' ', a, b)`: bounds are interpreted as in slice
notation; the returned index is absolute, `-1` when no space is found. -/
def pyRfindSpace (s : List Char) (a b : Int) : Int :=
  rfindSpaceAux s (pyNorm s.length a) (pyNorm s.length b)

/-- embedding/nodes.py lines 162-169: the window end for the window starting
at `start`: `end = start + chunk_size`; when that does not reach the text's
end, shrink to the last space found by `text.rfind(' ', start, end)` provided
it lies strictly after `start`. -/
def nextEnd (text : List Char) (chunk_size : Nat) (start : Int) : Int :=
  let e : Int := start + chunk_size
  if e < (text.length : Int) then
    let space_pos := pyRfindSpace text start e
    if space_pos > start then space_pos else e
  else e

/-- embedding/nodes.py line 176: the next value of `start`
(`end - overlap` when the window did not reach the text's end, else `end`). -/
def nextStart (text : List Char) (chunk_size overlap : Nat) (start : Int) : Int :=
  let e := nextEnd text chunk_size start
  if e < (text.length : Int) then e - overlap else e

/-- embedding/nodes.py lines 158-176: the `while start < len(text)` loop of
`_split_text_into_chunks`, indexed by fuel; `none` means the fuel ran out
(in particular, if the result is `none` for every fuel the Python loop never
terminates). The trimmed chunk is appended only when non-empty. -/
def splitLoop (text : List Char) (chunk_size overlap : Nat) :
    Nat → Int → List (List Char) → Option (List (List Char))
  | 0, _, _ => none
  | fuel + 1, start, chunks =>
    if start < (text.length : Int) then
      let e := nextEnd text chunk_size start
      let chunk := pyStrip (pySlice text start e)
      splitLoop text chunk_size overlap fuel (nextStart text chunk_size overlap start)
        (if chunk.isEmpty then chunks else chunks ++ [chunk])
    else some chunks

/-- embedding/nodes.py lines 143-178: `_split_text_into_chunks(text,
chunk_size, overlap)`. A text no longer than `chunk_size` is returned whole
as a single chunk; otherwise the windowing loop runs from position 0. -/
def split_text_into_chunks (text : List Char) (chunk_size overlap : Nat)
    (fuel : Nat) : Option (List (List Char)) :=
  if text.length ≤ chunk_size then some [text]
  else splitLoop text chunk_size overlap fuel 0 []

/-- Instrumented variant of `splitLoop` that additionally records, for every
iteration, the untrimmed window `(start, end, emitted?)` it examined, where
`emitted?` says whether the trimmed chunk was non-empty and hence appended.
The chunk accumulation is identical to `splitLoop`. -/
def splitLoopW (text : List Char) (chunk_size overlap : Nat) :
    Nat → Int → List (List Char) → List (Int × Int × Bool) →
    Option (List (List Char) × List (Int × Int × Bool))
  | 0, _, _, _ => none
  | fuel + 1, start, chunks, windows =>
    if start < (text.length : Int) then
      let e := nextEnd text chunk_size start
      let chunk := pyStrip (pySlice text start e)
      splitLoopW text chunk_size overlap fuel (nextStart text chunk_size overlap start)
        (if chunk.isEmpty then chunks else chunks ++ [chunk])
        (windows ++ [(start, e, !chunk.isEmpty)])
    else some (chunks, windows)

/-- Instrumented `_split_text_into_chunks`, also returning the untrimmed
windows. The single-chunk shortcut corresponds to the window
`[0, len(text))` with the whole text emitted untrimmed. -/
def split_text_into_chunksW (text : List Char) (chunk_size overlap : Nat)
    (fuel : Nat) : Option (List (List Char) × List (Int × Int × Bool)) :=
  if text.length ≤ chunk_size then some ([text], [(0, (text.length : Int), true)])
  else splitLoopW text chunk_size overlap fuel 0 [] []

/-- The chain of windows examined by the chunking loop when started at
`start`: each window begins at the current `start`, ends at
`nextEnd`, and the loop continues from `nextStart`; the chain is complete
exactly when the loop has exited (`start ≥ len(text)`). -/
def WChain (text : List Char) (chunk_size overlap : Nat) :
    Int → List (Int × Int × Bool) → Prop
  | start, [] => ¬ start < (text.length : Int)
  | start, w :: rest =>
    start < (text.length : Int) ∧ w.1 = start ∧ w.2.1 = nextEnd text chunk_size start ∧
      WChain text chunk_size overlap (nextStart text chunk_size overlap start) rest

/- ----------------------------------------------------------------------
   Extract stage: convert_pdfs_to_text (extract/nodes.py lines 65-160).
   The S3 client and the docling converter are external collaborators; the
   outcome of one item's sequence of external calls is supplied by an
   oracle. An exception can also be raised by `os.unlink` (line 141) AFTER
   the success entry was recorded, which the `convOkCleanupFail` outcome
   captures.
   ---------------------------------------------------------------------- -/

/-- The outcome of the external calls made for one PDF inside the `try`
block of `convert_pdfs_to_text` (download, convert, upload, unlink):
`convFail err` = some call before the success entry raised (download,
conversion, or upload — lines 106-124); `convOk text` = everything
succeeded; `convOkCleanupFail text err` = the conversion and upload
succeeded (so the success entry was recorded, line 130-136) and then
`os.unlink` (line 141) raised `err`. -/
inductive ConvOutcome where
  | convFail (err : String)
  | convOk (text : String)
  | convOkCleanupFail (text : String) (err : String)
deriving DecidableEq, Repr

/-- Entry of `converted_index["converted_files"]` (lines 130-135). -/
structure ConvSuccessEntry where
  original_pdf : String
  output_txt : String
  filename : String
deriving DecidableEq, Repr

/-- Entry of `converted_index["failed_files"]` (lines 145-149). -/
structure ConvFailEntry where
  original_pdf : String
  error : String
deriving DecidableEq, Repr

/-- `converted_index` (lines 92-98). -/
structure ConvertedIndex where
  converted_files : List ConvSuccessEntry
  failed_files : List ConvFailEntry
  total_processed : Nat
  total_successful : Nat
  total_failed : Nat
deriving DecidableEq, Repr

/-- The mutable state of the conversion loop: `texts_data` (a Python dict,
insertion-ordered) and `converted_index`. -/
structure ConvState where
  texts_data : List (String × String)
  index : ConvertedIndex
deriving DecidableEq, Repr

/-- Python dict assignment `d[k] = v`: overwrite in place when the key is
present, else append. -/
def dictInsert (d : List (String × String)) (k v : String) :
    List (String × String) :=
  if d.any (fun p => p.1 == k) then
    d.map (fun p => if p.1 == k then (k, v) else p)
  else d ++ [(k, v)]

/-- Initial `texts_data` / `converted_index` (lines 91-98). -/
def initConvState : ConvState :=
  { texts_data := []
    index := { converted_files := [], failed_files := [],
               total_processed := 0, total_successful := 0, total_failed := 0 } }

/-- One iteration of the `for pdf_key in pdf_files` loop (lines 100-152).
`stem` models `Path(pdf_key).stem`. On `convFail` only a failure entry is
recorded; on `convOk` the text is stored and a success entry recorded; on
`convOkCleanupFail` the success entry is recorded and then the `except`
block additionally records a failure entry for the same key.
`total_processed` is incremented outside the `try` (line 152), on every
path. -/
def convertStep (stem : String → String) (outcome : String → ConvOutcome)
    (st : ConvState) (pdf_key : String) : ConvState :=
  let st' :=
    match outcome pdf_key with
    | ConvOutcome.convFail err =>
      let entry : ConvFailEntry := { original_pdf := pdf_key, error := err }
      { st with
        index :=
          { st.index with
            failed_files := st.index.failed_files ++ [entry],
            total_failed := st.index.total_failed + 1 } }
    | ConvOutcome.convOk text =>
      let filename := stem pdf_key
      let output_key := "intermedio/txt/" ++ filename ++ ".txt"
      let entry : ConvSuccessEntry :=
        { original_pdf := pdf_key, output_txt := output_key,
          filename := filename }
      { texts_data := dictInsert st.texts_data filename text,
        index :=
          { st.index with
            converted_files := st.index.converted_files ++ [entry],
            total_successful := st.index.total_successful + 1 } }
    | ConvOutcome.convOkCleanupFail text err =>
      let filename := stem pdf_key
      let output_key := "intermedio/txt/" ++ filename ++ ".txt"
      let entry : ConvSuccessEntry :=
        { original_pdf := pdf_key, output_txt := output_key,
          filename := filename }
      let fentry : ConvFailEntry := { original_pdf := pdf_key, error := err }
      { texts_data := dictInsert st.texts_data filename text,
        index :=
          { st.index with
            converted_files := st.index.converted_files ++ [entry],
            total_successful := st.index.total_successful + 1,
            failed_files := st.index.failed_files ++ [fentry],
            total_failed := st.index.total_failed + 1 } }
  { st' with
    index :=
      { st'.index with
        total_processed := st'.index.total_processed + 1 } }

/-- extract/nodes.py lines 65-160: `convert_pdfs_to_text(pdf_files)`,
sequentially folding the per-item step over the input list. -/
def convert_pdfs_to_text (stem : String → String)
    (outcome : String → ConvOutcome) (pdf_files : List String) : ConvState :=
  pdf_files.foldl (convertStep stem outcome) initConvState

/-- Does this outcome record a success entry? (`convOk` or
`convOkCleanupFail`.) -/
def isConvRecordedSuccess : ConvOutcome → Bool
  | ConvOutcome.convOk _ => true
  | ConvOutcome.convOkCleanupFail _ _ => true
  | ConvOutcome.convFail _ => false

/-- The failure entry (if any) this outcome records for key `k`. -/
def convFailureEntry (k : String) : ConvOutcome → Option ConvFailEntry
  | ConvOutcome.convFail e => some { original_pdf := k, error := e }
  | ConvOutcome.convOkCleanupFail _ e => some { original_pdf := k, error := e }
  | ConvOutcome.convOk _ => none

/-- Is this the post-success-cleanup failure outcome (`os.unlink` raised)? -/
def isConvCleanupFail : ConvOutcome → Bool
  | ConvOutcome.convOkCleanupFail _ _ => true
  | _ => false

/- ----------------------------------------------------------------------
   Embedding stage: generate_embeddings_and_upsert
   (embedding/nodes.py lines 17-140).
   ---------------------------------------------------------------------- -/

/-- Entry of `embedding_report["processed_documents"]` (lines 116-120). -/
structure EmbedSuccessEntry where
  filename : String
  chunks_created : Nat
deriving DecidableEq, Repr

/-- Entry of `embedding_report["failed_documents"]` (lines 130-134). -/
structure EmbedFailEntry where
  filename : String
  error : String
deriving DecidableEq, Repr

/-- `embedding_report` (lines 58-65; the timestamp string is opaque and
omitted). -/
structure EmbeddingReport where
  total_documents : Nat
  processed_documents : List EmbedSuccessEntry
  failed_documents : List EmbedFailEntry
  total_vectors_created : Nat
  total_vectors_failed : Nat
deriving DecidableEq, Repr

/-- `collections_used["collection_details"][collection_name]`
(lines 71-76). -/
structure CollectionDetails where
  vector_size : Nat
  distance_metric : String
  documents_added : Nat
  vectors_added : Nat
deriving DecidableEq, Repr

/-- `collections_used` (lines 67-78; the dict holds the single collection
`"documents"`; the timestamp string is opaque and omitted). -/
structure CollectionsUsed where
  collections : List String
  collection_details : CollectionDetails
deriving DecidableEq, Repr

/-- The mutable state of the per-document embedding loop: the two report
dictionaries. -/
structure EmbedState where
  report : EmbeddingReport
  collections : CollectionsUsed
deriving DecidableEq, Repr

/-- Initial reports (lines 58-78) for a given `texts_partitioned` input:
`total_documents = len(texts_partitioned)`, empty lists, zero counters,
collection `"documents"` with vector size 384 and COSINE distance. -/
def initEmbedState (texts_partitioned : List (String × List Char)) :
    EmbedState :=
  { report :=
      { total_documents := texts_partitioned.length,
        processed_documents := [], failed_documents := [],
        total_vectors_created := 0, total_vectors_failed := 0 },
    collections :=
      { collections := ["documents"],
        collection_details :=
          { vector_size := 384, distance_metric := "COSINE",
            documents_added := 0, vectors_added := 0 } } }

/-- One iteration of the `for filename, text_content in
texts_partitioned.items()` loop (lines 81-135). The document's text is
chunked by `_split_text_into_chunks(text, 1000, 200)` (line 86, `none`
propagates chunking non-termination); `oracle filename` gives the error
string of the exception raised by the external embedding/upsert calls
(lines 91 and 110), or `none` when they all succeed. On success one entry
with the chunk count is appended and both reports' totals grow by
`len(chunks)` (lines 116-124); on failure one failure entry is appended
and `total_vectors_failed` grows by 1 (lines 130-135). -/
def embedStep (fuel : Nat) (oracle : String → Option String)
    (st : EmbedState) (doc : String × List Char) : Option EmbedState :=
  match split_text_into_chunks doc.2 1000 200 fuel with
  | none => none
  | some chunks =>
    match oracle doc.1 with
    | none =>
      some
        { report :=
            { st.report with
              processed_documents := st.report.processed_documents ++
                [{ filename := doc.1, chunks_created := chunks.length }],
              total_vectors_created :=
                st.report.total_vectors_created + chunks.length },
          collections :=
            { st.collections with
              collection_details :=
                { st.collections.collection_details with
                  documents_added :=
                    st.collections.collection_details.documents_added + 1,
                  vectors_added :=
                    st.collections.collection_details.vectors_added +
                      chunks.length } } }
    | some e =>
      some
        { st with
          report :=
            { st.report with
              failed_documents := st.report.failed_documents ++
                [{ filename := doc.1, error := e }],
              total_vectors_failed := st.report.total_vectors_failed + 1 } }

/-- The sequential per-document loop (lines 81-135): processes the
documents in order; `none` when chunking fuel runs out (the Python loop
would hang there). -/
def embedLoop (fuel : Nat) (oracle : String → Option String) :
    EmbedState → List (String × List Char) → Option EmbedState
  | st, [] => some st
  | st, d :: ds =>
    match embedStep fuel oracle st d with
    | none => none
    | some st' => embedLoop fuel oracle st' ds

/-- The output key written for a successfully converted PDF named
`filename` (extract/nodes.py line 116). -/
def convOutputKey (filename : String) : String :=
  "intermedio/txt/" ++ filename ++ ".txt"

/-- The success entry recorded for key `k` (extract/nodes.py lines
130-135). -/
def convSuccessEntryFor (stem : String → String) (k : String) :
    ConvSuccessEntry :=
  { original_pdf := k, output_txt := convOutputKey (stem k),
    filename := stem k }

/-- The Qdrant collections, as visible through `get_collection` /
`create_collection` (spec section 6): a list of (name, vector size,
distance metric). -/
structure VectorDB where
  collections : List (String × Nat × String)
deriving DecidableEq, Repr

/-- embedding/nodes.py lines 47-55: the collection-ensure step.
`get_collection(name)` succeeds exactly when the name is present (else it
raises and the `except` branch calls `create_collection`). Returns the new
database state and the number of `create_collection` calls made (0 or 1). -/
def ensureCollection (db : VectorDB) (name : String) (size : Nat)
    (metric : String) : VectorDB × Nat :=
  if name ∈ db.collections.map (fun c => c.1) then (db, 0)
  else ({ collections := db.collections ++ [(name, size, metric)] }, 1)

/-- embedding/nodes.py lines 17-140: `generate_embeddings_and_upsert`:
ensure the `"documents"` collection (384, COSINE), then run the
per-document loop from the initial reports. Returns the two reports and
the database state, or `none` when chunking hangs. -/
def generate_embeddings_and_upsert (texts_partitioned : List (String × List Char))
    (oracle : String → Option String) (db : VectorDB) (fuel : Nat) :
    Option ((EmbeddingReport × CollectionsUsed) × VectorDB) :=
  let ec := ensureCollection db "documents" 384 "COSINE"
  (embedLoop fuel oracle (initEmbedState texts_partitioned) texts_partitioned).map
    (fun st => ((st.report, st.collections), ec.1))

/- ----------------------------------------------------------------------
   Report aggregator: generate_execution_reports
   (embedding/nodes.py lines 181-219).
   ---------------------------------------------------------------------- -/

/-- `embedding_report["execution_summary"]` (lines 198-206; the
processing-time string is opaque and omitted). -/
structure EmbeddingExecutionSummary where
  success_rate : ℚ
deriving DecidableEq, Repr

/-- `collections_used["execution_summary"]` (lines 208-215). -/
structure CollectionsExecutionSummary where
  total_collections : Nat
  total_vectors_across_collections : Nat
deriving DecidableEq, Repr

/-- Lines 199-204: `total_vectors_created / (total_vectors_created +
total_vectors_failed)` when the denominator is positive, else `0`. -/
def successRate (r : EmbeddingReport) : ℚ :=
  if r.total_vectors_created + r.total_vectors_failed > 0 then
    (r.total_vectors_created : ℚ) /
      ((r.total_vectors_created + r.total_vectors_failed : Nat) : ℚ)
  else 0

/-- embedding/nodes.py lines 181-219: `generate_execution_reports`: attach
the success rate to the embedding report and the collection count and
vector sum (over the single collection entry) to the collections report. -/
def generate_execution_reports (r : EmbeddingReport) (c : CollectionsUsed) :
    EmbeddingExecutionSummary × CollectionsExecutionSummary :=
  ({ success_rate := successRate r },
   { total_collections := c.collections.length,
     total_vectors_across_collections := c.collection_details.vectors_added })

/- ----------------------------------------------------------------------
   Concrete inputs used by counterexamples and witnesses.
   ---------------------------------------------------------------------- -/

/-- A text on which the chunking loop never advances: with chunk_size 10 and
overlap 3, the last space of the window `[0, 10)` is at position 3, so
`end = 3` and the next start is `3 - 3 = 0` — a fixed point of the loop. -/
def c1text : List Char := "abc defghijklm".toList

/-- A 1001-character text that splits under the production parameters
(chunk_size 1000, overlap 200) into exactly 2 chunks: 998 letters, one
space, 2 letters. -/
def c4text : List Char := List.replicate 998 'a' ++ ' ' :: List.replicate 2 'b'

/-- The embedding-loop state after successfully processing the single
5-character document `("d1", "hello")`: one success entry with its 1 chunk,
totals at 1, and the collection counters at 1 document / 1 vector. -/
def c10state : EmbedState :=
  { report :=
      { total_documents := 1,
        processed_documents := [{ filename := "d1", chunks_created := 1 }],
        failed_documents := [],
        total_vectors_created := 1, total_vectors_failed := 0 },
    collections :=
      { collections := ["documents"],
        collection_details :=
          { vector_size := 384, distance_metric := "COSINE",
            documents_added := 1, vectors_added := 1 } } }

/-- An embedding report with 3 vectors created and 1 document failed, used
to exercise the success-rate computation. -/
def c9report : EmbeddingReport :=
  { total_documents := 4, processed_documents := [], failed_documents := [],
    total_vectors_created := 3, total_vectors_failed := 1 }

/-- A collections report used to exercise the report aggregator. -/
def c9collections : CollectionsUsed :=
  { collections := ["documents"],
    collection_details :=
      { vector_size := 384, distance_metric := "COSINE",
        documents_added := 0, vectors_added := 0 } }

/- ----------------------------------------------------------------------
   Theorems.
   ---------------------------------------------------------------------- -/

/-- `pyNorm` is the identity on in-range nonnegative indices. -/
lemma pyNorm_coe (n i : Nat) (h : i ≤ n) : pyNorm n (i : Int) = i := by
  unfold pyNorm
  rw [if_neg (by omega : ¬ (i : Int) < 0)]
  simp [Nat.min_eq_left h]

/-- `rfindSpaceAux` returns `j` when `j` is the last space position in
`[lo, hi)`. -/
lemma rfindSpaceAux_eq_of_last (s : List Char) (lo j : Nat) :
    ∀ hi, lo ≤ j → j < hi → s.getD j 'x' = ' ' →
      (∀ k, j < k → k < hi → s.getD k 'x' ≠ ' ') →
      rfindSpaceAux s lo hi = (j : Int) := by
  intro hi
  induction hi with
  | zero => intro _ hj _ _; omega
  | succ m ih =>
    intro hlo hj hsp hafter
    by_cases hjm : j = m
    · subst hjm
      rw [rfindSpaceAux, if_pos ⟨hlo, hsp⟩]
    · have hjm' : j < m := by omega
      have hcond : ¬ (lo ≤ m ∧ s.getD m 'x' = ' ') := fun hc =>
        hafter m hjm' (Nat.lt_succ_self m) hc.2
      rw [rfindSpaceAux, if_neg hcond]
      exact ih hlo hjm' hsp (fun k h1 h2 => hafter k h1 (by omega))

/-- `rfindSpaceAux` returns `-1` when `[lo, hi)` holds no space. -/
lemma rfindSpaceAux_eq_neg (s : List Char) (lo : Nat) :
    ∀ hi, (∀ k, lo ≤ k → k < hi → s.getD k 'x' ≠ ' ') →
      rfindSpaceAux s lo hi = -1 := by
  intro hi
  induction hi with
  | zero => intro _; rfl
  | succ m ih =>
    intro h
    have hcond : ¬ (lo ≤ m ∧ s.getD m 'x' = ' ') := fun hc =>
      h m hc.1 (Nat.lt_succ_self m) hc.2
    rw [rfindSpaceAux, if_neg hcond]
    exact ih (fun k h1 h2 => h k h1 (by omega))

/-- On an in-range window, `pyRfindSpace` coincides with the normalized
search. -/
lemma pyRfindSpace_coe (s : List Char) (lo hi : Nat) (hlo : lo ≤ s.length)
    (hhi : hi ≤ s.length) :
    pyRfindSpace s (lo : Int) (hi : Int) = rfindSpaceAux s lo hi := by
  unfold pyRfindSpace
  rw [pyNorm_coe _ _ hlo, pyNorm_coe _ _ hhi]

/-- C7 (amended): for a window `[start, start+chunk_size)` that does not
reach the end of the text: if some position strictly after `start` in the
window holds a space and `j` is the last such position, the window end is
placed at `j`; if no position strictly after `start` holds a space (even if
`text[start]` itself is one), a hard cut at `start + chunk_size` is made.
The original claim is refuted by `c7_counterexample`: a space at position
`start` itself does not prevent the hard cut, because the code requires
`space_pos > start`. -/
theorem c7_word_boundary (text : List Char) (chunk_size start : Nat)
    (hwin : start + chunk_size < text.length) :
    ((∀ j : Nat, start < j → j < start + chunk_size → text.getD j 'x' ≠ ' ') →
      nextEnd text chunk_size (start : Int) = ((start + chunk_size : Nat) : Int))
    ∧ (∀ j : Nat, start < j → j < start + chunk_size → text.getD j 'x' = ' ' →
        (∀ k : Nat, j < k → k < start + chunk_size → text.getD k 'x' ≠ ' ') →
        nextEnd text chunk_size (start : Int) = (j : Int)) := by
  have hlt : ((start : Int) + (chunk_size : Int)) < (text.length : Int) := by
    omega
  have hfind : pyRfindSpace text (start : Int) ((start : Int) + (chunk_size : Int)) =
      rfindSpaceAux text start (start + chunk_size) := by
    have he : ((start : Int) + (chunk_size : Int)) = ((start + chunk_size : Nat) : Int) := by
      omega
    rw [he]
    exact pyRfindSpace_coe text start (start + chunk_size) (by omega) (by omega)
  constructor
  · intro hnos
    simp only [nextEnd]
    rw [if_pos hlt, hfind]
    rcases Nat.eq_zero_or_pos chunk_size with hcs | hcs
    · rw [rfindSpaceAux_eq_neg text start (start + chunk_size)
        (fun k h1 h2 => absurd h2 (by omega))]
      rw [if_neg (by omega : ¬ (-1 : Int) > (start : Int))]
      omega
    · by_cases hsp : text.getD start 'x' = ' '
      · rw [rfindSpaceAux_eq_of_last text start start (start + chunk_size)
          (le_refl start) (by omega) hsp hnos]
        rw [if_neg (by omega : ¬ (start : Int) > (start : Int))]
        omega
      · rw [rfindSpaceAux_eq_neg text start (start + chunk_size) (fun k h1 h2 => by
          rcases Nat.eq_or_lt_of_le h1 with h | h
          · rw [← h]; exact hsp
          · exact hnos k h h2)]
        rw [if_neg (by omega : ¬ (-1 : Int) > (start : Int))]
        omega
  · intro j hj hjw hsp hafter
    simp only [nextEnd]
    rw [if_pos hlt, hfind]
    rw [rfindSpaceAux_eq_of_last text start j (start + chunk_size)
      (by omega) hjw hsp hafter]
    rw [if_pos (by omega : (j : Int) > (start : Int))]

/-- Concrete text refuting C7 as stated: `" abcdefghijklmnop"` with
chunk_size 10 and window start 0: the space at position 0 lies within the
window `[0, 10)` and the window does not reach the text's end, yet the
window end is the hard cut 10 (mid-word), not the space. -/
theorem c7_counterexample :
    nextEnd " abcdefghijklmnop".toList 10 0 = 10
    ∧ " abcdefghijklmnop".toList.getD 0 'x' = ' '
    ∧ 0 + 10 < " abcdefghijklmnop".toList.length := by
  refine ⟨by decide, by decide, by decide⟩

/-- Witness for `c7_word_boundary` on `"abcdefgh ijklmnopqrst"` at window
start 2 with chunk size 10: the last space strictly after 2 in `[2, 12)`
is at position 8, and the window end is placed there. -/
theorem c7_witness :
    nextEnd "abcdefgh ijklmnopqrst".toList 10 (2 : Nat) = (8 : Nat) := by
  have h := c7_word_boundary "abcdefgh ijklmnopqrst".toList 10 2 (by decide)
  exact h.2 8 (by decide) (by decide) (by decide)
    (fun k h1 h2 => by interval_cases k <;> decide)

/-- A Python slice is a contiguous substring of the sliced list. -/
lemma pySlice_isInfix (s : List Char) (a b : Int) : pySlice s a b <:+: s := by
  unfold pySlice
  have h1 : (s.take (pyNorm s.length b)).drop (pyNorm s.length a) <:+
      s.take (pyNorm s.length b) := List.drop_suffix _ _
  have h2 : s.take (pyNorm s.length b) <+: s := List.take_prefix _ _
  exact h1.isInfix.trans h2.isInfix

/-- Stripping whitespace from both ends yields a contiguous substring. -/
lemma pyStrip_isInfix (s : List Char) : pyStrip s <:+: s := by
  have h1 : s.dropWhile isPySpace <:+ s := List.dropWhile_suffix _
  have h3 : (s.dropWhile isPySpace).reverse.dropWhile isPySpace <:+
      (s.dropWhile isPySpace).reverse := List.dropWhile_suffix _
  have h2 : ((s.dropWhile isPySpace).reverse.dropWhile isPySpace).reverse <+:
      s.dropWhile isPySpace := by
    rw [← List.reverse_suffix]
    simpa using h3
  exact h2.isInfix.trans h1.isInfix

/-- Every chunk accumulated by the windowing loop is a non-empty contiguous
substring of the text (given that the accumulator already satisfies
this). -/
lemma splitLoop_infix (text : List Char) (chunk_size overlap : Nat) :
    ∀ (fuel : Nat) (start : Int) (acc res : List (List Char)),
      (∀ c ∈ acc, c <:+: text ∧ c ≠ []) →
      splitLoop text chunk_size overlap fuel start acc = some res →
      ∀ c ∈ res, c <:+: text ∧ c ≠ [] := by
  intro fuel
  induction fuel with
  | zero =>
    intro start acc res hacc h
    exact absurd h (by rw [splitLoop]; exact fun hc => Option.noConfusion hc)
  | succ n ih =>
    intro start acc res hacc h
    simp only [splitLoop] at h
    by_cases hs : start < (text.length : Int)
    · rw [if_pos hs] at h
      by_cases hemp : (pyStrip (pySlice text start (nextEnd text chunk_size start))).isEmpty
      · rw [if_pos hemp] at h
        exact ih _ _ _ hacc h
      · rw [if_neg hemp] at h
        refine ih _ _ _ ?_ h
        intro c hc
        rcases List.mem_append.mp hc with hc | hc
        · exact hacc c hc
        · rw [List.mem_singleton] at hc
          subst hc
          refine ⟨(pyStrip_isInfix _).trans (pySlice_isInfix text start _), ?_⟩
          intro hnil
          exact hemp (by rw [hnil]; rfl)
    · rw [if_neg hs] at h
      obtain rfl := Option.some.injEq .. ▸ h
      exact hacc

/-- C6 (amended): every chunk returned by `_split_text_into_chunks` is a
contiguous substring of the input text, and when the text is strictly
longer than `chunk_size` every chunk is non-empty (the loop skips chunks
that trim to empty). The original claim — non-emptiness for EVERY input,
including the empty string — is refuted by `c6_counterexample`: a text of
length at most `chunk_size` is returned whole as a single chunk, so the
empty input yields the single empty chunk `[""]`. -/
theorem c6_chunks_substrings (text : List Char) (chunk_size overlap fuel : Nat)
    (chunks : List (List Char))
    (h : split_text_into_chunks text chunk_size overlap fuel = some chunks) :
    ∀ c ∈ chunks, c <:+: text ∧ (chunk_size < text.length → c ≠ []) := by
  rw [split_text_into_chunks] at h
  by_cases hlen : text.length ≤ chunk_size
  · rw [if_pos hlen] at h
    obtain rfl := Option.some.injEq .. ▸ h
    intro c hc
    rw [List.mem_singleton] at hc
    subst hc
    exact ⟨List.infix_rfl, fun hlt => absurd hlt (by omega)⟩
  · rw [if_neg hlen] at h
    intro c hc
    have hres := splitLoop_infix text chunk_size overlap fuel 0 [] chunks
      (by intro c hc; exact absurd hc (List.not_mem_nil c)) h c hc
    exact ⟨hres.1, fun _ => hres.2⟩

/-- Concrete refutation of C6 as stated: the empty input text yields the
single chunk `""`, which is empty, not a non-empty substring. -/
theorem c6_counterexample :
    split_text_into_chunks ([] : List Char) 1000 200 1 = some [[]]
    ∧ ¬ (∀ c ∈ [([] : List Char)], c ≠ []) := by
  refine ⟨by decide, by decide⟩

/-- Witness for `c6_chunks_substrings` on `"abcdefghijklmnopqrst"` with
chunk_size 10 and overlap 3: the three returned chunks are non-empty
contiguous substrings. -/
theorem c6_witness :
    ("abcdefghij".toList <:+: "abcdefghijklmnopqrst".toList
      ∧ (10 < "abcdefghijklmnopqrst".toList.length →
          "abcdefghij".toList ≠ []))
    ∧ ("hijklmnopq".toList <:+: "abcdefghijklmnopqrst".toList
      ∧ (10 < "abcdefghijklmnopqrst".toList.length →
          "hijklmnopq".toList ≠ []))
    ∧ ("opqrst".toList <:+: "abcdefghijklmnopqrst".toList
      ∧ (10 < "abcdefghijklmnopqrst".toList.length →
          "opqrst".toList ≠ [])) :=
  ⟨c6_chunks_substrings "abcdefghijklmnopqrst".toList 10 3 10
      ["abcdefghij".toList, "hijklmnopq".toList, "opqrst".toList] (by decide)
      "abcdefghij".toList (by decide),
   c6_chunks_substrings "abcdefghijklmnopqrst".toList 10 3 10
      ["abcdefghij".toList, "hijklmnopq".toList, "opqrst".toList] (by decide)
      "hijklmnopq".toList (by decide),
   c6_chunks_substrings "abcdefghijklmnopqrst".toList 10 3 10
      ["abcdefghij".toList, "hijklmnopq".toList, "opqrst".toList] (by decide)
      "opqrst".toList (by decide)⟩

/-- From start 0 on `c1text` the loop state repeats, so no amount of fuel
suffices. -/
lemma splitLoop_c1_none :
    ∀ fuel chunks, splitLoop c1text 10 3 fuel 0 chunks = none := by
  intro fuel
  induction fuel with
  | zero => intro chunks; rfl
  | succ n ih =>
    intro chunks
    rw [splitLoop, if_pos (by decide : (0 : Int) < (c1text.length : Int))]
    exact ih _

/-- C1 (code bug): `_split_text_into_chunks` does NOT terminate for every
finite text with valid parameters `0 < overlap < chunk_size`. On
`"abc defghijklm"` (length 14) with chunk_size 10 and overlap 3 the loop
runs forever: every iteration shrinks the window end to the space at
position 3 and resets `start` to `3 - 3 = 0`. The fuel-indexed embedding
exhausts any fuel, i.e. the Python `while` loop never exits, whereas the
claim bounds the iterations by about `ceil(14 / 7) = 2`. -/
theorem c1_chunking_nonterm :
    ∀ fuel, split_text_into_chunks c1text 10 3 fuel = none := by
  intro fuel
  rw [split_text_into_chunks, if_neg (by decide : ¬ c1text.length ≤ 10)]
  exact splitLoop_c1_none fuel []

/-- The instrumented loop, when it completes, produces exactly the window
accumulator extended by a `WChain` starting at the current position. -/
lemma splitLoopW_wchain (text : List Char) (chunk_size overlap : Nat) :
    ∀ (fuel : Nat) (start : Int) (acc : List (List Char))
      (wacc : List (Int × Int × Bool)) (c : List (List Char))
      (ws : List (Int × Int × Bool)),
      splitLoopW text chunk_size overlap fuel start acc wacc = some (c, ws) →
      ∃ nws, ws = wacc ++ nws ∧ WChain text chunk_size overlap start nws := by
  intro fuel
  induction fuel with
  | zero =>
    intro start acc wacc c ws h
    exact absurd h (by rw [splitLoopW]; exact fun hc => Option.noConfusion hc)
  | succ n ih =>
    intro start acc wacc c ws h
    rw [splitLoopW] at h
    by_cases hs : start < (text.length : Int)
    · rw [if_pos hs] at h
      obtain ⟨nws, hws, hch⟩ := ih _ _ _ _ _ h
      refine ⟨(start, nextEnd text chunk_size start,
        !(pyStrip (pySlice text start (nextEnd text chunk_size start))).isEmpty) :: nws,
        ?_, ?_⟩
      · rw [hws, List.append_assoc]
        rfl
      · exact ⟨hs, rfl, rfl, hch⟩
    · rw [if_neg hs] at h
      obtain ⟨rfl, rfl⟩ := Prod.mk.injEq .. ▸ Option.some.injEq .. ▸ h
      exact ⟨[], by simp, hs⟩

/-- A `WChain` from `start` covers every text position at or after
`start`. -/
lemma wchain_covers (text : List Char) (chunk_size overlap : Nat) :
    ∀ (ws : List (Int × Int × Bool)) (start : Int),
      WChain text chunk_size overlap start ws →
      ∀ i : Int, start ≤ i → i < (text.length : Int) →
        ∃ w ∈ ws, w.1 ≤ i ∧ i < w.2.1 := by
  intro ws
  induction ws with
  | nil =>
    intro start h i h1 h2
    exact absurd (lt_of_le_of_lt h1 h2) h
  | cons w rest ih =>
    intro start h i h1 h2
    obtain ⟨hs, hw1, hw2, hch⟩ := h
    by_cases hie : i < w.2.1
    · exact ⟨w, List.mem_cons_self w rest, hw1 ▸ h1, hie⟩
    · have hnext : nextStart text chunk_size overlap start ≤ i := by
        unfold nextStart
        by_cases he : nextEnd text chunk_size start < (text.length : Int)
        · rw [if_pos he]
          have : ¬ i < nextEnd text chunk_size start := hw2 ▸ hie
          omega
        · rw [if_neg he]
          exact absurd (lt_of_lt_of_le h2 (not_lt.mp he)) (hw2 ▸ hie)
      obtain ⟨w', hmem, hp⟩ := ih _ hch i hnext h2
      exact ⟨w', List.mem_cons_of_mem w hmem, hp⟩

/-- Along a `WChain`, the ranges of two consecutive windows intersect in at
most `overlap` integer positions. -/
lemma wchain_chain (text : List Char) (chunk_size overlap : Nat) :
    ∀ (ws : List (Int × Int × Bool)) (start : Int),
      WChain text chunk_size overlap start ws →
      List.Chain' (fun a b : Int × Int × Bool =>
        min a.2.1 b.2.1 - max a.1 b.1 ≤ (overlap : Int)) ws := by
  intro ws
  induction ws with
  | nil => intro _ _; exact List.chain'_nil
  | cons w rest ih =>
    intro start h
    obtain ⟨hs, hw1, hw2, hch⟩ := h
    cases rest with
    | nil => exact List.chain'_singleton w
    | cons w2 rest2 =>
      obtain ⟨hs2, hw21, hw22, hch2⟩ := hch
      rw [List.chain'_cons]
      refine ⟨?_, ih _ ⟨hs2, hw21, hw22, hch2⟩⟩
      by_cases he : nextEnd text chunk_size start < (text.length : Int)
      · have h21 : w2.1 = nextEnd text chunk_size start - (overlap : Int) := by
          rw [hw21]
          unfold nextStart
          rw [if_pos he]
        have hmin : min w.2.1 w2.2.1 ≤ w.2.1 := min_le_left _ _
        have hmax : w2.1 ≤ max w.1 w2.1 := le_max_right _ _
        omega
      · have h21 : nextStart text chunk_size overlap start =
            nextEnd text chunk_size start := by
          unfold nextStart
          rw [if_neg he]
        rw [h21] at hs2
        exact absurd hs2 he

/-- The instrumented chunker computes the same chunk list as the plain
one. -/
lemma splitLoopW_fst (text : List Char) (chunk_size overlap : Nat) :
    ∀ (fuel : Nat) (start : Int) (acc : List (List Char))
      (wacc : List (Int × Int × Bool)),
      (splitLoopW text chunk_size overlap fuel start acc wacc).map Prod.fst =
        splitLoop text chunk_size overlap fuel start acc := by
  intro fuel
  induction fuel with
  | zero => intro start acc wacc; rfl
  | succ n ih =>
    intro start acc wacc
    rw [splitLoopW, splitLoop]
    by_cases hs : start < (text.length : Int)
    · rw [if_pos hs, if_pos hs]
      exact ih _ _ _
    · rw [if_neg hs, if_neg hs]
      rfl

/-- The instrumented `_split_text_into_chunks` agrees with the plain one on
the chunk component. -/
lemma split_text_into_chunksW_fst (text : List Char) (chunk_size overlap fuel : Nat) :
    (split_text_into_chunksW text chunk_size overlap fuel).map Prod.fst =
      split_text_into_chunks text chunk_size overlap fuel := by
  rw [split_text_into_chunksW, split_text_into_chunks]
  by_cases h : text.length ≤ chunk_size
  · rw [if_pos h, if_pos h]
    rfl
  · rw [if_neg h, if_neg h]
    exact splitLoopW_fst text chunk_size overlap fuel 0 [] []

/-- C2 (amended): for valid parameters, whenever the chunking loop
terminates, the untrimmed window ranges `[start, end)` it examined —
including the windows whose trimmed chunk was empty and therefore emitted
nothing — cover `[0, len(text))` with no gaps, and the ranges of any two
consecutive windows overlap by at most `overlap` positions. The original
claim, which speaks of the ranges of the EMITTED chunks only, is refuted
by `c2_counterexample`: a window whose slice is all whitespace is trimmed
to the empty chunk and skipped, leaving its range uncovered by the emitted
chunks' ranges. -/
theorem c2_window_coverage (text : List Char) (chunk_size overlap fuel : Nat)
    (chunks : List (List Char)) (ws : List (Int × Int × Bool))
    (hov : 0 < overlap) (hco : overlap < chunk_size)
    (h : split_text_into_chunksW text chunk_size overlap fuel = some (chunks, ws)) :
    (∀ i : Int, 0 ≤ i → i < (text.length : Int) →
      ∃ w ∈ ws, w.1 ≤ i ∧ i < w.2.1)
    ∧ List.Chain' (fun a b : Int × Int × Bool =>
        min a.2.1 b.2.1 - max a.1 b.1 ≤ (overlap : Int)) ws := by
  rw [split_text_into_chunksW] at h
  by_cases hlen : text.length ≤ chunk_size
  · rw [if_pos hlen] at h
    obtain ⟨rfl, rfl⟩ := Prod.mk.injEq .. ▸ Option.some.injEq .. ▸ h
    constructor
    · intro i h0 hi
      exact ⟨(0, (text.length : Int), true), List.mem_singleton_self _, h0, hi⟩
    · exact List.chain'_singleton _
  · rw [if_neg hlen] at h
    obtain ⟨nws, hws, hch⟩ := splitLoopW_wchain text chunk_size overlap fuel 0 [] [] chunks ws h
    rw [List.nil_append] at hws
    subst hws
    exact ⟨fun i h0 hi => wchain_covers text chunk_size overlap ws 0 hch i h0 hi,
      wchain_chain text chunk_size overlap ws 0 hch⟩

/-- Concrete refutation of C2 as stated: on `"ab" ++ 20 spaces ++ "cdefgh"`
(length 28) with chunk_size 10 and overlap 3, the loop emits only the two
chunks `"ab"` and `"cdefgh"`, from the windows `[0, 9)` and `[18, 28)`; the
windows `[6, 15)` and `[12, 21)` were trimmed to empty chunks and skipped.
Position 9 lies in `[0, 28)` but in no emitted chunk's range: the emitted
ranges do not cover the text. -/
theorem c2_counterexample :
    split_text_into_chunksW ("ab".toList ++ List.replicate 20 ' ' ++ "cdefgh".toList)
        10 3 100 =
      some (["ab".toList, "cdefgh".toList],
        [(0, 9, true), (6, 15, false), (12, 21, false), (18, 28, true)])
    ∧ ((0 : Int) ≤ 9 ∧ (9 : Int) <
        (("ab".toList ++ List.replicate 20 ' ' ++ "cdefgh".toList).length : Int))
    ∧ ∀ w ∈ [((0 : Int), (9 : Int), true), (6, 15, false), (12, 21, false),
        (18, 28, true)], w.2.2 = true → ¬ (w.1 ≤ 9 ∧ (9 : Int) < w.2.1) := by
  refine ⟨by decide, ⟨by decide, by decide⟩, by decide⟩

/-- Witness for `c2_window_coverage` on the no-space text
`"abcdefghijklmnopqrst"` (length 20) with chunk_size 10, overlap 3: the
loop examines the windows `[0, 10)`, `[7, 17)`, `[14, 24)`, which cover
`[0, 20)` and pairwise overlap by exactly 3 positions. -/
theorem c2_witness :
    (∀ i : Int, 0 ≤ i → i < ("abcdefghijklmnopqrst".toList.length : Int) →
      ∃ w ∈ [((0 : Int), (10 : Int), true), (7, 17, true), (14, 24, true)],
        w.1 ≤ i ∧ i < w.2.1)
    ∧ List.Chain' (fun a b : Int × Int × Bool =>
        min a.2.1 b.2.1 - max a.1 b.1 ≤ ((3 : Nat) : Int))
        [((0 : Int), (10 : Int), true), (7, 17, true), (14, 24, true)] := by
  exact c2_window_coverage "abcdefghijklmnopqrst".toList 10 3 10
    ["abcdefghij".toList, "hijklmnopq".toList, "opqrst".toList]
    [((0 : Int), (10 : Int), true), (7, 17, true), (14, 24, true)]
    (by decide) (by decide) (by decide)

/-- Each conversion iteration increments `total_processed` by exactly 1
(the increment sits outside the `try`/`except`). -/
lemma convertStep_processed (stem : String → String)
    (outcome : String → ConvOutcome) (st : ConvState) (k : String) :
    (convertStep stem outcome st k).index.total_processed =
      st.index.total_processed + 1 := by
  unfold convertStep
  cases outcome k <;> rfl

/-- Folding the conversion step processes every input item. -/
lemma conv_foldl_processed (stem : String → String)
    (outcome : String → ConvOutcome) :
    ∀ (l : List String) (st : ConvState),
      (l.foldl (convertStep stem outcome) st).index.total_processed =
        st.index.total_processed + l.length := by
  intro l
  induction l with
  | nil => intro st; rfl
  | cons k ks ih =>
    intro st
    rw [List.foldl_cons, ih, convertStep_processed]
    simp only [List.length_cons]
    omega

/-- The failure entries accumulated by the conversion fold are exactly the
failure entries of the items' outcomes, in input order. -/
lemma conv_foldl_failed (stem : String → String)
    (outcome : String → ConvOutcome) :
    ∀ (l : List String) (st : ConvState),
      (l.foldl (convertStep stem outcome) st).index.failed_files =
        st.index.failed_files ++
          l.filterMap (fun k => convFailureEntry k (outcome k)) := by
  intro l
  induction l with
  | nil => intro st; simp
  | cons k ks ih =>
    intro st
    rw [List.foldl_cons, ih, List.filterMap_cons]
    cases hout : outcome k with
    | convFail err =>
      simp [convertStep, hout, convFailureEntry]
    | convOk text =>
      simp [convertStep, hout, convFailureEntry]
    | convOkCleanupFail text err =>
      simp [convertStep, hout, convFailureEntry]

/-- The success entries accumulated by the conversion fold are exactly the
entries of the items whose outcome records a success, in input order. -/
lemma conv_foldl_converted (stem : String → String)
    (outcome : String → ConvOutcome) :
    ∀ (l : List String) (st : ConvState),
      (l.foldl (convertStep stem outcome) st).index.converted_files =
        st.index.converted_files ++
          (l.filter (fun k => isConvRecordedSuccess (outcome k))).map
            (convSuccessEntryFor stem) := by
  intro l
  induction l with
  | nil => intro st; simp
  | cons k ks ih =>
    intro st
    rw [List.foldl_cons, ih, List.filter_cons]
    cases hout : outcome k with
    | convFail err =>
      simp [convertStep, hout, isConvRecordedSuccess]
    | convOk text =>
      simp [convertStep, hout, isConvRecordedSuccess, convSuccessEntryFor,
        convOutputKey]
    | convOkCleanupFail text err =>
      simp [convertStep, hout, isConvRecordedSuccess, convSuccessEntryFor,
        convOutputKey]

/-- The running success counter equals the number of success entries
contributed. -/
lemma conv_foldl_successful (stem : String → String)
    (outcome : String → ConvOutcome) :
    ∀ (l : List String) (st : ConvState),
      (l.foldl (convertStep stem outcome) st).index.total_successful =
        st.index.total_successful +
          (l.filter (fun k => isConvRecordedSuccess (outcome k))).length := by
  intro l
  induction l with
  | nil => intro st; rfl
  | cons k ks ih =>
    intro st
    rw [List.foldl_cons, ih, List.filter_cons]
    cases hout : outcome k with
    | convFail err =>
      simp [convertStep, hout, isConvRecordedSuccess]
    | convOk text =>
      simp [convertStep, hout, isConvRecordedSuccess]
      omega
    | convOkCleanupFail text err =>
      simp [convertStep, hout, isConvRecordedSuccess]
      omega

/-- The running failure counter equals the number of failure entries
contributed. -/
lemma conv_foldl_failedcount (stem : String → String)
    (outcome : String → ConvOutcome) :
    ∀ (l : List String) (st : ConvState),
      (l.foldl (convertStep stem outcome) st).index.total_failed =
        st.index.total_failed +
          (l.filterMap (fun k => convFailureEntry k (outcome k))).length := by
  intro l
  induction l with
  | nil => intro st; rfl
  | cons k ks ih =>
    intro st
    rw [List.foldl_cons, ih, List.filterMap_cons]
    cases hout : outcome k with
    | convFail err =>
      simp [convertStep, hout, convFailureEntry]
      omega
    | convOk text =>
      simp [convertStep, hout, convFailureEntry]
    | convOkCleanupFail text err =>
      simp [convertStep, hout, convFailureEntry]
      omega

/-- When no item hits the post-success cleanup failure, each item
contributes exactly one entry: success-filter length plus
failure-entry count equals the input length. -/
lemma conv_entries_partition (outcome : String → ConvOutcome) :
    ∀ l : List String, (∀ k ∈ l, isConvCleanupFail (outcome k) = false) →
      (l.filter (fun k => isConvRecordedSuccess (outcome k))).length +
        (l.filterMap (fun k => convFailureEntry k (outcome k))).length =
        l.length := by
  intro l
  induction l with
  | nil => intro _; rfl
  | cons k ks ih =>
    intro hclean
    have hks := ih (fun k hk => hclean k (List.mem_cons_of_mem _ hk))
    rw [List.filter_cons, List.filterMap_cons]
    cases hout : outcome k with
    | convFail err =>
      simp [hout, isConvRecordedSuccess, convFailureEntry] at hks ⊢
      omega
    | convOk text =>
      simp [hout, isConvRecordedSuccess, convFailureEntry] at hks ⊢
      omega
    | convOkCleanupFail text err =>
      have := hclean k (List.mem_cons_self k ks)
      rw [hout] at this
      exact absurd this (by simp [isConvCleanupFail])

/-- The keys of the accumulated failure entries are the keys of the items
with a failing outcome, in order (assuming no cleanup failures). -/
lemma conv_failed_keys (outcome : String → ConvOutcome) :
    ∀ l : List String, (∀ k ∈ l, isConvCleanupFail (outcome k) = false) →
      (l.filterMap (fun k => convFailureEntry k (outcome k))).map
          (fun en => en.original_pdf) =
        l.filter (fun k => ¬ isConvRecordedSuccess (outcome k)) := by
  intro l
  induction l with
  | nil => intro _; rfl
  | cons k ks ih =>
    intro hclean
    have hks := ih (fun k hk => hclean k (List.mem_cons_of_mem _ hk))
    rw [List.filterMap_cons, List.filter_cons]
    cases hout : outcome k with
    | convFail err =>
      simp [hout, convFailureEntry, isConvRecordedSuccess] at hks ⊢
      exact hks
    | convOk text =>
      simp [hout, convFailureEntry, isConvRecordedSuccess] at hks ⊢
      exact hks
    | convOkCleanupFail text err =>
      have := hclean k (List.mem_cons_self k ks)
      rw [hout] at this
      exact absurd this (by simp [isConvCleanupFail])

/-- Case analysis of one completed embedding iteration: either the
document's external calls succeeded and one success entry with the chunk
count was recorded (both reports' totals growing by the chunk count, the
collection counters by one document), or they raised and one failure entry
with the error string was recorded, `total_vectors_failed` growing
by exactly 1. -/
lemma embedStep_some_elim (fuel : Nat) (oracle : String → Option String)
    (st : EmbedState) (d : String × List Char) (st' : EmbedState)
    (h : embedStep fuel oracle st d = some st') :
    ∃ chunks, split_text_into_chunks d.2 1000 200 fuel = some chunks ∧
      ((oracle d.1 = none ∧
        st'.report.processed_documents = st.report.processed_documents ++
          [{ filename := d.1, chunks_created := chunks.length }] ∧
        st'.report.failed_documents = st.report.failed_documents ∧
        st'.report.total_vectors_created =
          st.report.total_vectors_created + chunks.length ∧
        st'.report.total_vectors_failed = st.report.total_vectors_failed ∧
        st'.report.total_documents = st.report.total_documents ∧
        st'.collections.collection_details.documents_added =
          st.collections.collection_details.documents_added + 1 ∧
        st'.collections.collection_details.vectors_added =
          st.collections.collection_details.vectors_added + chunks.length)
      ∨ (∃ e, oracle d.1 = some e ∧
        st'.report.processed_documents = st.report.processed_documents ∧
        st'.report.failed_documents = st.report.failed_documents ++
          [{ filename := d.1, error := e }] ∧
        st'.report.total_vectors_created = st.report.total_vectors_created ∧
        st'.report.total_vectors_failed =
          st.report.total_vectors_failed + 1 ∧
        st'.report.total_documents = st.report.total_documents ∧
        st'.collections = st.collections)) := by
  unfold embedStep at h
  cases hsp : split_text_into_chunks d.2 1000 200 fuel with
  | none =>
    rw [hsp] at h
    exact absurd h (fun hc => Option.noConfusion hc)
  | some chunks =>
    rw [hsp] at h
    refine ⟨chunks, rfl, ?_⟩
    cases hor : oracle d.1 with
    | none =>
      rw [hor] at h
      obtain rfl := Option.some.injEq .. ▸ h
      exact Or.inl ⟨rfl, rfl, rfl, rfl, rfl, rfl, rfl, rfl⟩
    | some e =>
      rw [hor] at h
      obtain rfl := Option.some.injEq .. ▸ h
      exact Or.inr ⟨e, rfl, rfl, rfl, rfl, rfl, rfl, rfl⟩

/-- A completed embedding loop: the success entries' filenames are exactly
the documents whose external calls succeed (in order), the failure entries
are exactly the failing documents tagged with their error strings (in
order), and `total_documents` is untouched. -/
lemma embedLoop_lists (fuel : Nat) (oracle : String → Option String) :
    ∀ (docs : List (String × List Char)) (st0 st : EmbedState),
      embedLoop fuel oracle st0 docs = some st →
      st.report.processed_documents.map (fun en => en.filename) =
        st0.report.processed_documents.map (fun en => en.filename) ++
          (docs.filter (fun d => (oracle d.1).isNone)).map (fun d => d.1) ∧
      st.report.failed_documents = st0.report.failed_documents ++
        docs.filterMap (fun d => (oracle d.1).map
          (fun e => ({ filename := d.1, error := e } : EmbedFailEntry))) ∧
      st.report.total_documents = st0.report.total_documents := by
  intro docs
  induction docs with
  | nil =>
    intro st0 st h
    obtain rfl := Option.some.injEq .. ▸ h
    exact ⟨by simp, by simp, rfl⟩
  | cons d ds ih =>
    intro st0 st h
    rw [embedLoop] at h
    cases hstep : embedStep fuel oracle st0 d with
    | none => rw [hstep] at h; exact absurd h (fun hc => Option.noConfusion hc)
    | some st1 =>
      rw [hstep] at h
      obtain ⟨chunks, hsp, hcase⟩ := embedStep_some_elim fuel oracle st0 d st1 hstep
      obtain ⟨hp, hf, ht⟩ := ih st1 st h
      rw [List.filter_cons, List.filterMap_cons]
      rcases hcase with ⟨hor, h1, h2, _, _, h6, _, _⟩ | ⟨e, hor, h1, h2, _, _, h6, _⟩
      · rw [hor]
        refine ⟨?_, ?_, by rw [ht, h6]⟩
        · rw [hp, h1]
          simp
        · rw [hf, h2]
          simp
      · rw [hor]
        refine ⟨?_, ?_, by rw [ht, h6]⟩
        · rw [hp, h1]
          simp
        · rw [hf, h2]
          simp
  
/-- When every document's chunking terminates within the given fuel, the
embedding loop completes (no per-item exception aborts it). -/
lemma embedLoop_complete (fuel : Nat) (oracle : String → Option String) :
    ∀ (docs : List (String × List Char)) (st0 : EmbedState),
      (∀ d ∈ docs, (split_text_into_chunks d.2 1000 200 fuel).isSome = true) →
      ∃ st, embedLoop fuel oracle st0 docs = some st := by
  intro docs
  induction docs with
  | nil => intro st0 _; exact ⟨st0, rfl⟩
  | cons d ds ih =>
    intro st0 hfuel
    have hd := hfuel d (List.mem_cons_self d ds)
    rw [embedLoop]
    cases hsp : split_text_into_chunks d.2 1000 200 fuel with
    | none => rw [hsp] at hd; exact absurd hd (by simp)
    | some chunks =>
      have hstep : ∃ st1, embedStep fuel oracle st0 d = some st1 := by
        unfold embedStep
        rw [hsp]
        cases oracle d.1 with
        | none => exact ⟨_, rfl⟩
        | some e => exact ⟨_, rfl⟩
      obtain ⟨st1, hstep⟩ := hstep
      rw [hstep]
      exact ih st1 (fun d hd => hfuel d (List.mem_cons_of_mem _ hd))

/-- The cross-report invariant of C10 is preserved by the embedding
loop. -/
lemma embedLoop_inv (fuel : Nat) (oracle : String → Option String) :
    ∀ (docs : List (String × List Char)) (st0 st : EmbedState),
      st0.collections.collection_details.documents_added =
        st0.report.processed_documents.length →
      st0.collections.collection_details.vectors_added =
        st0.report.total_vectors_created →
      embedLoop fuel oracle st0 docs = some st →
      st.collections.collection_details.documents_added =
        st.report.processed_documents.length ∧
      st.collections.collection_details.vectors_added =
        st.report.total_vectors_created := by
  intro docs
  induction docs with
  | nil =>
    intro st0 st h1 h2 h
    obtain rfl := Option.some.injEq .. ▸ h
    exact ⟨h1, h2⟩
  | cons d ds ih =>
    intro st0 st h1 h2 h
    rw [embedLoop] at h
    cases hstep : embedStep fuel oracle st0 d with
    | none => rw [hstep] at h; exact absurd h (fun hc => Option.noConfusion hc)
    | some st1 =>
      rw [hstep] at h
      obtain ⟨chunks, hsp, hcase⟩ := embedStep_some_elim fuel oracle st0 d st1 hstep
      rcases hcase with ⟨_, hp, _, hc, _, _, hda, hva⟩ | ⟨e, _, hp, _, hc, _, _, hcol⟩
      · refine ih st1 st ?_ ?_ h
        · rw [hda, hp, h1]
          simp
        · rw [hva, hc, h2]
      · refine ih st1 st ?_ ?_ h
        · rw [hcol, hp, h1]
        · rw [hcol, hc, h2]

/-- Each document contributes exactly one entry to the embedding reports:
success-filter length plus failure-entry count equals the input length. -/
lemma embed_entries_partition (oracle : String → Option String) :
    ∀ docs : List (String × List Char),
      (docs.filter (fun d => (oracle d.1).isNone)).length +
        (docs.filterMap (fun d => (oracle d.1).map
          (fun e => ({ filename := d.1, error := e } : EmbedFailEntry)))).length =
        docs.length := by
  intro docs
  induction docs with
  | nil => rfl
  | cons d ds ih =>
    rw [List.filter_cons, List.filterMap_cons]
    cases hor : oracle d.1 with
    | none =>
      simp [hor] at ih ⊢
      omega
    | some e =>
      simp [hor] at ih ⊢
      omega

/-- The filenames of the accumulated embedding failure entries are the
failing documents' names, in order. -/
lemma embed_failed_keys (oracle : String → Option String) :
    ∀ docs : List (String × List Char),
      (docs.filterMap (fun d => (oracle d.1).map
          (fun e => ({ filename := d.1, error := e } : EmbedFailEntry)))).map
        (fun en => en.filename) =
        (docs.filter (fun d => (oracle d.1).isSome)).map (fun d => d.1) := by
  intro docs
  induction docs with
  | nil => rfl
  | cons d ds ih =>
    rw [List.filterMap_cons, List.filter_cons]
    cases hor : oracle d.1 with
    | none => simpa [hor] using ih
    | some e => simpa [hor] using ih

/-- C3 (amended): in both stages every processed item contributes entries
that reconcile with the counters. Conversion: `total_processed = N`
unconditionally; provided the post-success temp-file cleanup (`os.unlink`,
which runs inside the `try` AFTER the success entry is recorded) never
raises, `total_successful + total_failed = N` and the success/failure
entry keys are the complementary filters of the input, so each item
appears in exactly one list. Embedding (given the loop completes): success
entries plus failure entries number exactly N and their filenames are the
complementary filters of the input. The original claim, with no proviso on
the cleanup, is refuted by `c3_counterexample`: an `os.unlink` failure
records the SAME item in both lists and makes
`total_successful + total_failed = total_processed + 1`. -/
theorem c3_accounting (stem : String → String)
    (outcome : String → ConvOutcome) (pdf_files : List String) (fuel : Nat)
    (oracle : String → Option String) (docs : List (String × List Char))
    (st : EmbedState)
    (hclean : ∀ k ∈ pdf_files, isConvCleanupFail (outcome k) = false)
    (hrun : embedLoop fuel oracle (initEmbedState docs) docs = some st) :
    ((convert_pdfs_to_text stem outcome pdf_files).index.total_processed =
        pdf_files.length
     ∧ (convert_pdfs_to_text stem outcome pdf_files).index.total_successful +
         (convert_pdfs_to_text stem outcome pdf_files).index.total_failed =
         pdf_files.length
     ∧ (convert_pdfs_to_text stem outcome pdf_files).index.converted_files.map
           (fun en => en.original_pdf) =
         pdf_files.filter (fun k => isConvRecordedSuccess (outcome k))
     ∧ (convert_pdfs_to_text stem outcome pdf_files).index.failed_files.map
           (fun en => en.original_pdf) =
         pdf_files.filter (fun k => ¬ isConvRecordedSuccess (outcome k)))
    ∧ (st.report.processed_documents.length +
         st.report.failed_documents.length = docs.length
       ∧ st.report.processed_documents.map (fun en => en.filename) =
           (docs.filter (fun d => (oracle d.1).isNone)).map (fun d => d.1)
       ∧ st.report.failed_documents.map (fun en => en.filename) =
           (docs.filter (fun d => (oracle d.1).isSome)).map (fun d => d.1)) := by
  constructor
  · refine ⟨?_, ?_, ?_, ?_⟩
    · rw [convert_pdfs_to_text, conv_foldl_processed]
      simp [initConvState]
    · rw [convert_pdfs_to_text, conv_foldl_successful, conv_foldl_failedcount]
      have := conv_entries_partition outcome pdf_files hclean
      simp only [initConvState] at *
      omega
    · rw [convert_pdfs_to_text, conv_foldl_converted]
      simp only [initConvState, List.nil_append, List.map_map]
      have hcomp : ((fun en : ConvSuccessEntry => en.original_pdf) ∘
          convSuccessEntryFor stem) = id := funext fun k => rfl
      rw [hcomp, List.map_id]
    · rw [convert_pdfs_to_text, conv_foldl_failed]
      simp only [initConvState, List.nil_append]
      exact conv_failed_keys outcome pdf_files hclean
  · obtain ⟨hp, hf, _⟩ := embedLoop_lists fuel oracle docs _ st hrun
    refine ⟨?_, ?_, ?_⟩
    · have hplen : st.report.processed_documents.length =
          (docs.filter (fun d => (oracle d.1).isNone)).length := by
        have := congrArg List.length hp
        simpa [initEmbedState] using this
      have hflen := congrArg List.length hf
      simp only [initEmbedState, List.nil_append] at hflen
      rw [hplen, hflen]
      exact embed_entries_partition oracle docs
    · simpa [initEmbedState] using hp
    · rw [hf]
      simp only [initEmbedState, List.nil_append]
      exact embed_failed_keys oracle docs

/-- Concrete refutation of C3 as stated: one input PDF whose conversion and
upload succeed but whose temp-file cleanup (`os.unlink`) raises: the item
is recorded in BOTH lists, `total_successful + total_failed = 2` while
`total_processed = 1`. -/
theorem c3_counterexample :
    (convert_pdfs_to_text (fun k => k)
        (fun _ => ConvOutcome.convOkCleanupFail "text" "boom")
        ["a.pdf"]).index.total_successful +
      (convert_pdfs_to_text (fun k => k)
        (fun _ => ConvOutcome.convOkCleanupFail "text" "boom")
        ["a.pdf"]).index.total_failed = 2
    ∧ (convert_pdfs_to_text (fun k => k)
        (fun _ => ConvOutcome.convOkCleanupFail "text" "boom")
        ["a.pdf"]).index.total_processed = 1
    ∧ "a.pdf" ∈ (convert_pdfs_to_text (fun k => k)
        (fun _ => ConvOutcome.convOkCleanupFail "text" "boom")
        ["a.pdf"]).index.converted_files.map (fun en => en.original_pdf)
    ∧ "a.pdf" ∈ (convert_pdfs_to_text (fun k => k)
        (fun _ => ConvOutcome.convOkCleanupFail "text" "boom")
        ["a.pdf"]).index.failed_files.map (fun en => en.original_pdf) := by
  refine ⟨by decide, by decide, by decide, by decide⟩

/-- C3 witness: two PDFs, `"a.pdf"` converting successfully and `"b.pdf"`
failing (no cleanup failures): `total_successful + total_failed = 2`. -/
theorem c3_witness :
    (convert_pdfs_to_text (fun k => k)
        (fun k => if k = "a.pdf" then ConvOutcome.convOk "ta"
          else ConvOutcome.convFail "e1")
        ["a.pdf", "b.pdf"]).index.total_successful +
      (convert_pdfs_to_text (fun k => k)
        (fun k => if k = "a.pdf" then ConvOutcome.convOk "ta"
          else ConvOutcome.convFail "e1")
        ["a.pdf", "b.pdf"]).index.total_failed = 2 :=
  (c3_accounting (fun k => k)
    (fun k => if k = "a.pdf" then ConvOutcome.convOk "ta"
      else ConvOutcome.convFail "e1")
    ["a.pdf", "b.pdf"] 1 (fun _ => none) [] (initEmbedState [])
    (by decide) rfl).1.2.1

/-- C4 (amended): on each successfully embedded document
`total_vectors_created` grows by that document's chunk count (and the
collection counters by 1 document / chunk-count vectors, cf. C10); on each
FAILED document `total_vectors_failed` grows by exactly 1 — it counts
failed documents, not failed vectors. The original claim (growth by the
failed document's chunk count) is refuted by `c4_counterexample`. -/
theorem c4_vector_totals (fuel : Nat) (oracle : String → Option String)
    (st : EmbedState) (d : String × List Char) (st' : EmbedState)
    (h : embedStep fuel oracle st d = some st') :
    (oracle d.1 = none → ∃ chunks,
        split_text_into_chunks d.2 1000 200 fuel = some chunks ∧
        st'.report.total_vectors_created =
          st.report.total_vectors_created + chunks.length ∧
        st'.report.total_vectors_failed = st.report.total_vectors_failed)
    ∧ (∀ e, oracle d.1 = some e →
        st'.report.total_vectors_failed =
          st.report.total_vectors_failed + 1 ∧
        st'.report.total_vectors_created =
          st.report.total_vectors_created) := by
  obtain ⟨chunks, hsp, hcase⟩ := embedStep_some_elim fuel oracle st d st' h
  constructor
  · intro hor
    rcases hcase with ⟨_, _, _, hc, hf, _, _, _⟩ | ⟨e, hor2, _⟩
    · exact ⟨chunks, hsp, hc, hf⟩
    · rw [hor] at hor2
      exact Option.noConfusion hor2
  · intro e hor
    rcases hcase with ⟨hor2, _⟩ | ⟨e2, _, _, _, hc, hf, _, _⟩
    · rw [hor] at hor2
      exact Option.noConfusion hor2
    · exact ⟨hf, hc⟩

set_option maxRecDepth 40000 in
set_option maxHeartbeats 1600000 in
/-- Concrete refutation of C4 as stated: the 1001-character document
`c4text` splits into 2 chunks, yet when its embedding/upsert raises,
`total_vectors_failed` grows from 0 to 1, not to 2. -/
theorem c4_counterexample :
    (split_text_into_chunks c4text 1000 200 5).map List.length = some 2
    ∧ (embedStep 5 (fun _ => some "boom") (initEmbedState [("d", c4text)])
        ("d", c4text)).map (fun s => s.report.total_vectors_failed) = some 1
    ∧ (1 : Nat) ≠ 2 := by
  refine ⟨by decide, by decide, by decide⟩

/-- C4 witness: a successfully embedded 2-character document with 1 chunk
grows `total_vectors_created` from 0 to 1 and leaves
`total_vectors_failed` at 0. -/
theorem c4_witness :
    ∃ chunks, split_text_into_chunks "hi".toList 1000 200 1 = some chunks ∧
      ({ report :=
           { total_documents := 1,
             processed_documents := [{ filename := "d", chunks_created := 1 }],
             failed_documents := [],
             total_vectors_created := 1, total_vectors_failed := 0 },
         collections :=
           { collections := ["documents"],
             collection_details :=
               { vector_size := 384, distance_metric := "COSINE",
                 documents_added := 1, vectors_added := 1 } } } :
          EmbedState).report.total_vectors_created =
        (initEmbedState [("d", "hi".toList)]).report.total_vectors_created +
          chunks.length ∧
      ({ report :=
           { total_documents := 1,
             processed_documents := [{ filename := "d", chunks_created := 1 }],
             failed_documents := [],
             total_vectors_created := 1, total_vectors_failed := 0 },
         collections :=
           { collections := ["documents"],
             collection_details :=
               { vector_size := 384, distance_metric := "COSINE",
                 documents_added := 1, vectors_added := 1 } } } :
          EmbedState).report.total_vectors_failed =
        (initEmbedState [("d", "hi".toList)]).report.total_vectors_failed :=
  (c4_vector_totals 1 (fun _ => none) (initEmbedState [("d", "hi".toList)])
    ("d", "hi".toList) _ (by decide)).1 rfl

/-- C5 (confirmed): per-item exceptions are absorbed, recorded with the
error's string form, and never abort the batch. Conversion: the loop is
total, processes all N items (`total_processed = N`), and its failure list
is exactly the failure entries of the items' outcomes in order — including
a cleanup (`os.unlink`) exception after a success, which is also caught
and recorded. Embedding: provided every document's chunking terminates
(non-termination of the chunker, cf. C1, is not an exception: the Python
loop would hang, not raise), the loop completes, and its failure list is
exactly the failing documents with their error strings, in order. -/
theorem c5_error_absorption (stem : String → String)
    (outcome : String → ConvOutcome) (pdf_files : List String) (fuel : Nat)
    (oracle : String → Option String) (docs : List (String × List Char))
    (hfuel : ∀ d ∈ docs,
      (split_text_into_chunks d.2 1000 200 fuel).isSome = true) :
    ((convert_pdfs_to_text stem outcome pdf_files).index.total_processed =
        pdf_files.length
     ∧ (convert_pdfs_to_text stem outcome pdf_files).index.failed_files =
         pdf_files.filterMap (fun k => convFailureEntry k (outcome k)))
    ∧ ∃ st, embedLoop fuel oracle (initEmbedState docs) docs = some st
        ∧ st.report.failed_documents = docs.filterMap (fun d =>
            (oracle d.1).map
              (fun e => ({ filename := d.1, error := e } : EmbedFailEntry)))
        ∧ st.report.processed_documents.length +
            st.report.failed_documents.length = docs.length := by
  constructor
  · constructor
    · rw [convert_pdfs_to_text, conv_foldl_processed]
      simp [initConvState]
    · rw [convert_pdfs_to_text, conv_foldl_failed]
      simp [initConvState]
  · obtain ⟨st, hst⟩ := embedLoop_complete fuel oracle docs
      (initEmbedState docs) hfuel
    obtain ⟨hp, hf, _⟩ := embedLoop_lists fuel oracle docs _ st hst
    refine ⟨st, hst, ?_, ?_⟩
    · rw [hf]
      simp [initEmbedState]
    · have hplen : st.report.processed_documents.length =
          (docs.filter (fun d => (oracle d.1).isNone)).length := by
        have := congrArg List.length hp
        simpa [initEmbedState] using this
      have hflen := congrArg List.length hf
      simp only [initEmbedState, List.nil_append] at hflen
      rw [hplen, hflen]
      exact embed_entries_partition oracle docs

/-- C5 witness: with `"a.pdf"` converting and `"b.pdf"` raising `"e1"`,
the failure list holds exactly the entry for `"b.pdf"` carrying `"e1"`. -/
theorem c5_witness :
    (convert_pdfs_to_text (fun k => k)
        (fun k => if k = "a.pdf" then ConvOutcome.convOk "ta"
          else ConvOutcome.convFail "e1")
        ["a.pdf", "b.pdf"]).index.failed_files =
      [{ original_pdf := "b.pdf", error := "e1" }] :=
  (c5_error_absorption (fun k => k)
    (fun k => if k = "a.pdf" then ConvOutcome.convOk "ta"
      else ConvOutcome.convFail "e1")
    ["a.pdf", "b.pdf"] 1 (fun _ => none) [] (by simp)).1.2

/-- C10 (confirmed): after any number of iterations of the per-document
loop started from the initial reports (and hence on return), the two
reports agree: `documents_added` equals the number of success entries and
`vectors_added` equals `total_vectors_created`. -/
theorem c10_reports_agree (fuel : Nat) (oracle : String → Option String)
    (docs pre : List (String × List Char)) (st : EmbedState)
    (h : embedLoop fuel oracle (initEmbedState docs) pre = some st) :
    st.collections.collection_details.documents_added =
      st.report.processed_documents.length ∧
    st.collections.collection_details.vectors_added =
      st.report.total_vectors_created :=
  embedLoop_inv fuel oracle pre (initEmbedState docs) st rfl rfl h

/-- C10 witness: after successfully processing the single document
`("d1", "hello")` the state is `c10state`, whose collection counters agree
with its report. -/
theorem c10_witness :
    c10state.collections.collection_details.documents_added =
      c10state.report.processed_documents.length ∧
    c10state.collections.collection_details.vectors_added =
      c10state.report.total_vectors_created :=
  c10_reports_agree 1 (fun _ => none) [("d1", "hello".toList)]
    [("d1", "hello".toList)] c10state (by decide)

/-- C8 (confirmed): ensuring a collection that is absent creates it
exactly once; ensuring it again observes the existing collection, makes no
`create_collection` call, and leaves the database unchanged. -/
theorem c8_ensure_idempotent (db : VectorDB) (name : String) (size : Nat)
    (metric : String) (h : name ∉ db.collections.map (fun c => c.1)) :
    (ensureCollection db name size metric).2 = 1
    ∧ (ensureCollection (ensureCollection db name size metric).1
        name size metric).2 = 0
    ∧ (ensureCollection (ensureCollection db name size metric).1
        name size metric).1 = (ensureCollection db name size metric).1 := by
  simp [ensureCollection, h]

/-- C8 witness: ensuring `"documents"` (384, COSINE) twice on an empty
database creates it once and the second call skips creation. -/
theorem c8_witness :
    (ensureCollection { collections := [] } "documents" 384 "COSINE").2 = 1
    ∧ (ensureCollection
        (ensureCollection { collections := [] } "documents" 384 "COSINE").1
        "documents" 384 "COSINE").2 = 0
    ∧ (ensureCollection
        (ensureCollection { collections := [] } "documents" 384 "COSINE").1
        "documents" 384 "COSINE").1 =
      (ensureCollection { collections := [] } "documents" 384 "COSINE").1 :=
  c8_ensure_idempotent { collections := [] } "documents" 384 "COSINE"
    (by decide)

/-- C9 (confirmed): the success rate attached by
`generate_execution_reports` is 0 when no vectors were attempted
(`created + failed = 0`), and otherwise equals
`created / (created + failed)` — the guarded expression never divides by
zero — and lies in `[0, 1]`. -/
theorem c9_success_rate (r : EmbeddingReport) (c : CollectionsUsed) :
    (r.total_vectors_created + r.total_vectors_failed = 0 →
      (generate_execution_reports r c).1.success_rate = 0)
    ∧ (0 < r.total_vectors_created + r.total_vectors_failed →
      (generate_execution_reports r c).1.success_rate *
          ((r.total_vectors_created + r.total_vectors_failed : Nat) : ℚ) =
        (r.total_vectors_created : ℚ)
      ∧ 0 ≤ (generate_execution_reports r c).1.success_rate
      ∧ (generate_execution_reports r c).1.success_rate ≤ 1) := by
  constructor
  · intro h0
    show successRate r = 0
    unfold successRate
    rw [if_neg (by omega)]
  · intro hpos
    have hr : (generate_execution_reports r c).1.success_rate =
        (r.total_vectors_created : ℚ) /
          ((r.total_vectors_created + r.total_vectors_failed : Nat) : ℚ) := by
      show successRate r = _
      unfold successRate
      rw [if_pos hpos]
    have hden : ((r.total_vectors_created + r.total_vectors_failed : Nat) : ℚ) ≠ 0 := by
      exact_mod_cast Nat.pos_iff_ne_zero.mp hpos
    have hdenpos : (0 : ℚ) <
        ((r.total_vectors_created + r.total_vectors_failed : Nat) : ℚ) := by
      exact_mod_cast hpos
    rw [hr]
    refine ⟨div_mul_cancel₀ _ hden, by positivity, ?_⟩
    rw [div_le_one hdenpos]
    exact_mod_cast Nat.le_add_right r.total_vectors_created r.total_vectors_failed

/-- C9 witness: with 3 vectors created and 1 failure the rate `q` satisfies
`q * 4 = 3` and `0 ≤ q ≤ 1`; the zero-attempt case is exercised on the
initial (all-zero) report, where the rate is 0. -/
theorem c9_witness :
    ((generate_execution_reports c9report c9collections).1.success_rate *
        ((c9report.total_vectors_created + c9report.total_vectors_failed : Nat) : ℚ) =
      (c9report.total_vectors_created : ℚ)
    ∧ 0 ≤ (generate_execution_reports c9report c9collections).1.success_rate
    ∧ (generate_execution_reports c9report c9collections).1.success_rate ≤ 1)
    ∧ (generate_execution_reports (initEmbedState []).report
        c9collections).1.success_rate = 0 :=
  ⟨(c9_success_rate c9report c9collections).2 (by decide),
   (c9_success_rate (initEmbedState []).report c9collections).1 rfl⟩
